import Mathlib

/-!
Verification development for the `pm-agent-backend` repository: a spec→PPTX
renderer (`quang/pttx_generator.py`) and a PPTX→JSON analyzer
(`quang/lambda_function.py`).

The Python data layer (values produced by `json.loads`) is modelled by the
inductive type `Value`; each Python function under scrutiny is translated
into a Lean definition of the same name, placed in a namespace named after
its source file.  Fallible Python code (code that can raise an exception
that is not caught) returns `Option`, with `none` marking an uncaught
exception.  External library calls whose results the code merely threads
through (`dateutil.parser.parse`, `datetime.fromisoformat`,
`datetime.fromtimestamp`, `datetime.now`) are taken as parameters, so the
theorems hold for every behaviour of those libraries.
-/

/-- A Python value as produced by `json.loads`: `None`, booleans, ints,
floats (modelled as rationals), strings, lists, and string-keyed dicts
(insertion-ordered, modelled as association lists). -/
inductive Value where
  | vnone : Value
  | vbool : Bool → Value
  | vint : Int → Value
  | vfloat : ℚ → Value
  | vstr : String → Value
  | vlist : List Value → Value
  | vdict : List (String × Value) → Value
deriving Repr

namespace LambdaFn

/-- Python's membership test `cv in (None, False, [], \x7b\x7d)` from
`lambda_function.compact`.  Python `in` tests with `==`, and in Python
`0 == False` and `0.0 == False` hold (bool is an int subtype), so the int
`0` and the float `0.0` also pass this test. -/
def isEmptyLike : Value → Bool
  | .vnone => true
  | .vbool b => !b
  | .vint n => n = 0
  | .vfloat q => q = 0
  | .vlist xs => xs.isEmpty
  | .vdict kvs => kvs.isEmpty
  | .vstr _ => false

mutual

/-- `lambda_function.compact`: recursively drop dict entries and list items
whose already-compacted value compares `==` to `None`, `False`, `[]` or the
empty dict.  `compactList` is the loop over a list's items, `compactKVs`
the loop over a dict's entries — both compact the member first and then
skip it when the compacted value passes the emptiness test, exactly as the
source's comprehension-plus-filter does. -/
def compact : Value → Value
  | .vdict kvs => .vdict (compactKVs kvs)
  | .vlist xs => .vlist (compactList xs)
  | v => v
termination_by v => sizeOf v

def compactList : List Value → List Value
  | [] => []
  | x :: xs =>
    let cx := compact x
    if isEmptyLike cx then compactList xs else cx :: compactList xs
termination_by xs => sizeOf xs

def compactKVs : List (String × Value) → List (String × Value)
  | [] => []
  | (k, v) :: kvs =>
    let cv := compact v
    if isEmptyLike cv then compactKVs kvs else (k, cv) :: compactKVs kvs
termination_by kvs => sizeOf kvs

end

end LambdaFn

/-- Python's identity test `v is None`. -/
def Value.isNone : Value → Bool
  | .vnone => true
  | _ => false

/-- The ASCII whitespace characters stripped by Python's `str.strip()` and
matched by the regex class `\s` (the unicode extras are outside this
model). -/
def pyIsSpace (c : Char) : Bool :=
  c = ' ' || c = '\t' || c = '\n' || c = '\r' || c = '\x0b' || c = '\x0c'

/-- Python `str.strip()` (ASCII whitespace). -/
def pyStrip (s : String) : String :=
  ⟨((s.data.dropWhile pyIsSpace).reverse.dropWhile pyIsSpace).reverse⟩

/-- ASCII lowercasing of one character, as done by Python `str.lower()` on
ASCII text. -/
def pyLowerChar (c : Char) : Char :=
  if 'A' ≤ c && c ≤ 'Z' then Char.ofNat (c.toNat + 32) else c

/-- Python `str.lower()` (ASCII model). -/
def pyLower (s : String) : String := ⟨s.data.map pyLowerChar⟩

namespace PttxGen

mutual

/-- The inner `normalize` of `pttx_generator.cleaning_JSON`: on a string it
computes `obj.strip().lower()` and then compares that *lowercased* text with
the exact-case literals `"True"` / `"False"` — exactly as the source does;
dict entries whose key is `"layout"` and whose value is `None` are dropped;
lists and dicts are recursed into; every other scalar is returned
unchanged. -/
def normalize : Value → Value
  | .vstr s =>
      let lower := pyLower (pyStrip s)
      if lower = "True" then .vbool true
      else if lower = "False" then .vbool false
      else .vstr s
  | .vdict kvs => .vdict (normalizeKVs kvs)
  | .vlist xs => .vlist (normalizeList xs)
  | v => v
termination_by v => sizeOf v

def normalizeList : List Value → List Value
  | [] => []
  | x :: xs => normalize x :: normalizeList xs
termination_by xs => sizeOf xs

def normalizeKVs : List (String × Value) → List (String × Value)
  | [] => []
  | (k, v) :: kvs =>
    if k == "layout" && v.isNone then normalizeKVs kvs
    else (k, normalize v) :: normalizeKVs kvs
termination_by kvs => sizeOf kvs

end

/-- `pttx_generator.cleaning_JSON` after `json.loads`: the normalization
pass applied to the parsed value.  (`json.loads` itself is modelled by the
`Value` datatype: its output is exactly a `Value` tree.) -/
def cleaning_JSON (v : Value) : Value := normalize v

end PttxGen

example : LambdaFn.compact (.vdict [("a", .vint 0)]) = .vdict [] := by
  simp [LambdaFn.compact, LambdaFn.compactKVs, LambdaFn.isEmptyLike]

example : PttxGen.normalize (.vstr "True") = .vstr "True" := by
  simp only [PttxGen.normalize]
  rw [if_neg (by decide), if_neg (by decide)]

example : pyLower (pyStrip "  True ") = "true" := by decide

/-- A CPython `datetime.datetime` date part.  CPython enforces
`MINYEAR = 1 ≤ year ≤ MAXYEAR = 9999` and calendar-valid month/day; the
time-of-day fields play no role in any claim and are omitted. -/
structure PyDatetime where
  year : Int
  month : Nat
  day : Nat
deriving DecidableEq, Repr

/-- Days in a month of the proleptic Gregorian calendar used by
`datetime`. -/
def daysInMonth (y : Int) (m : Nat) : Nat :=
  if m = 2 then
    if y % 4 = 0 && (y % 100 ≠ 0 || y % 400 = 0) then 29 else 28
  else if m = 4 || m = 6 || m = 9 || m = 11 then 30
  else 31

/-- The `datetime(year, month, day)` constructor: returns `none` (raises
`ValueError`) outside CPython's validity range `1 ≤ year ≤ 9999`,
`1 ≤ month ≤ 12`, `1 ≤ day ≤ days in that month`. -/
def datetime_mk (y : Int) (m d : Nat) : Option PyDatetime :=
  if 1 ≤ y && y ≤ 9999 && 1 ≤ m && m ≤ 12 && 1 ≤ d && d ≤ daysInMonth y m
  then some ⟨y, m, d⟩ else none

namespace PttxGen

/-- Value of an ASCII decimal digit, `none` for any other character (the
regex class `\d`, ASCII model). -/
def digitVal? (c : Char) : Option Nat :=
  if 48 ≤ c.toNat && c.toNat ≤ 57 then some (c.toNat - 48) else none

/-- The compiled regex `_Q_RE = ^(\d{4})\s+Q([1-4])$` with `re.I`: match
four digits, one or more whitespace characters, `Q` or `q`, one digit in
`1..4`, end of string.  Returns the year and the quarter number. -/
def matchQuarter (s : String) : Option (Nat × Nat) :=
  match s.data with
  | c1 :: c2 :: c3 :: c4 :: rest =>
    match digitVal? c1, digitVal? c2, digitVal? c3, digitVal? c4 with
    | some a, some b, some c, some d =>
      if (rest.takeWhile pyIsSpace).isEmpty then none
      else
        match rest.dropWhile pyIsSpace with
        | [qc, nc] =>
          if qc = 'Q' || qc = 'q' then
            match digitVal? nc with
            | some n => if 1 ≤ n && n ≤ 4 then
                some (1000 * a + 100 * b + 10 * c + d, n) else none
            | none => none
          else none
        | _ => none
    | _, _, _, _ => none
  | _ => none

/-- The inputs `parse_time` dispatches on: numbers (ints and floats share
one branch), an already-typed `datetime`, `None`, strings, and any other
("weird") type carried by its `str()` rendering. -/
inductive TimeInput where
  | num : ℚ → TimeInput
  | dt : PyDatetime → TimeInput
  | none_ : TimeInput
  | str : String → TimeInput
  | other : String → TimeInput
deriving DecidableEq, Repr

/-- `pttx_generator.parse_time`.  The external calls are parameters:
`fromts` is `datetime.fromtimestamp` (raises — `none` — when the timestamp
is out of the platform/datetime range), `du` is `dateutil.parser.parse`
when the optional dateutil import succeeded (`none` when the module is
absent), `iso` is `datetime.fromisoformat`, `now` is `datetime.now()`.
The result is `none` exactly when the original raises: the only uncaught
paths are `datetime.fromtimestamp` on a number and the `datetime(...)`
constructor in the quarter branch. -/
def parse_time (fromts : ℚ → Option PyDatetime)
    (du : Option (String → Option PyDatetime))
    (iso : String → Option PyDatetime) (now : PyDatetime) :
    TimeInput → Option PyDatetime
  | .num q => fromts q
  | .dt d => some d
  | .none_ => some now
  | .str x =>
    let s := pyStrip x
    match matchQuarter s with
    | some (year, q) => datetime_mk year ((q - 1) * 3 + 1) 1
    | none =>
      match du.bind (fun f => f s) with
      | some d => some d
      | none =>
        match iso s with
        | some d => some d
        | none => some now
  | .other r =>
    match du with
    | some f => some ((f r).getD now)
    | none => some ((iso r).getD now)

end PttxGen

example : PttxGen.matchQuarter "2025 Q3" = some (2025, 3) := by decide
example : PttxGen.matchQuarter "0000 q2" = some (0, 2) := by decide
example : PttxGen.matchQuarter "202 Q3" = none := by decide
example : PttxGen.parse_time (fun _ => none) none (fun _ => none)
    ⟨2025, 1, 1⟩ (.str "2025 Q2") = some ⟨2025, 4, 1⟩ := by decide
example : PttxGen.parse_time (fun _ => none) none (fun _ => none)
    ⟨2025, 1, 1⟩ (.str "0000 Q1") = none := by decide

namespace PttxGen

/-- Value of an ASCII hexadecimal digit. -/
def hexDigitVal? (c : Char) : Option Nat :=
  if 48 ≤ c.toNat && c.toNat ≤ 57 then some (c.toNat - 48)
  else if 97 ≤ c.toNat && c.toNat ≤ 102 then some (c.toNat - 87)
  else if 65 ≤ c.toNat && c.toNat ≤ 70 then some (c.toNat - 55)
  else none

/-- Hex digits possibly separated by single underscores (each underscore
must sit between two digits), accumulating left to right; `none` if a
non-digit is hit or an underscore is misplaced. -/
def hexDigitsAcc (acc : Nat) : List Char → Option Nat
  | [] => some acc
  | c :: rest =>
    if c = '_' then
      match rest with
      | [] => none
      | c2 :: rest2 =>
        match hexDigitVal? c2 with
        | some d => hexDigitsAcc (16 * acc + d) rest2
        | none => none
    else
      match hexDigitVal? c with
      | some d => hexDigitsAcc (16 * acc + d) rest
      | none => none

/-- CPython `int(s, 16)`: strip whitespace, optional sign, optional `0x` /
`0X` prefix (an underscore may directly follow the prefix), then a
non-empty run of hex digits with single underscores between digits;
`none` models the `ValueError` raised on any other shape. -/
def pyIntHex (s : String) : Option Int :=
  let cs := ((s.data.dropWhile pyIsSpace).reverse.dropWhile pyIsSpace).reverse
  match cs with
  | [] => none
  | c0 :: rest0 =>
    let sgn : Int := if c0 = '-' then -1 else 1
    let body0 := if c0 = '-' || c0 = '+' then rest0 else cs
    let pre : List Char × Bool := match body0 with
      | x0 :: x1 :: r =>
        if x0 = '0' && (x1 = 'x' || x1 = 'X') then (r, true)
        else (body0, false)
      | _ => (body0, false)
    let body := match pre.1, pre.2 with
      | u :: r, true => if u = '_' then r else pre.1
      | _, _ => pre.1
    match body with
    | [] => none
    | d :: rest =>
      match hexDigitVal? d with
      | some v => (hexDigitsAcc v rest).map (fun n => sgn * (n : Int))
      | none => none

/-- `pttx_generator.to_rgb`: `lstrip("#")`, double each character of a
3-character form, substitute the default `"1B1B1B"` for any other
length than 6, then build `RGBColor(int(s[0:2],16), int(s[2:4],16),
int(s[4:6],16))`.  The three `int(·, 16)` calls are *not* guarded, so a
6-character string with non-hex characters raises `ValueError` (`none`). -/
def to_rgb (hex_color : String) : Option (Int × Int × Int) :=
  let s0 := hex_color.data.dropWhile (fun c => c = '#')
  let s1 := if s0.length = 3 then s0.flatMap (fun c => [c, c]) else s0
  let s := if s1.length ≠ 6 then "1B1B1B".data else s1
  match pyIntHex ⟨s.take 2⟩, pyIntHex ⟨(s.drop 2).take 2⟩,
      pyIntHex ⟨(s.drop 4).take 2⟩ with
  | some r, some g, some b => some (r, g, b)
  | _, _, _ => none

/-- One element of the flat-with-slide-tags spec shape: its (integer)
`slide` tag when present, and an opaque payload standing for the rest of
the element dict. -/
structure FlatElem where
  slide : Option Int
  payload : String
deriving DecidableEq, Repr

/-- `idx = int(el.get("slide", 1))` for an integer-tagged element
(`int` on an int is the identity). -/
def FlatElem.idx (el : FlatElem) : Int := el.slide.getD 1

/-- `slides.setdefault(idx, []).append(el)` on an insertion-ordered dict
modelled as an association list: append to the first entry with this key,
or add a new entry at the end. -/
def addToGroup : List (Int × List FlatElem) → Int → FlatElem →
    List (Int × List FlatElem)
  | [], k, e => [(k, [e])]
  | (k', g) :: rest, k, e =>
    if k' = k then (k', g ++ [e]) :: rest
    else (k', g) :: addToGroup rest k e

/-- `slides[i]`: dict lookup (the key is always present when used). -/
def lookupGroup (d : List (Int × List FlatElem)) (k : Int) :
    List FlatElem :=
  ((d.find? (fun p => p.1 == k)).map Prod.snd).getD []

/-- `pttx_generator.group_elements_by_slide_flat`: build the `slides` dict
in input order, then emit `[slides[i] for i in sorted(slides)]` — the
groups in *ascending numeric key order* (each group keeps input order).
The `title: None` wrapper is dropped from the model; only the element
groups are returned. -/
def group_elements_by_slide_flat (elements : List FlatElem) :
    List (List FlatElem) :=
  let slides := elements.foldl (fun d el => addToGroup d el.idx el) []
  let keys := List.insertionSort (· ≤ ·) (slides.map Prod.fst)
  keys.map (fun k => lookupGroup slides k)

end PttxGen

example : PttxGen.to_rgb "#FFF" = some (255, 255, 255) := by decide
example : PttxGen.to_rgb "bogus" = some (27, 27, 27) := by decide
example : PttxGen.to_rgb "zzzzzz" = none := by decide
example : PttxGen.pyIntHex "1B" = some 27 := by decide

namespace PttxGen

/-- The `x_pos` closure of `render_chart_gantt`: map a day offset `d` (the
value `(parse_time(dt_str) - t0).days`) to a horizontal position inside the
content area by linear interpolation.  Lengths are exact rationals (EMU
arithmetic in the source is integral; the division happens in Python
floats, modelled exactly). -/
def x_pos (content_x content_w : ℚ) (total_days : ℚ) (d : ℚ) : ℚ :=
  content_x + content_w * (d / total_days)

/-- The per-item geometry of `render_chart_gantt`: the horizontal span of
one chevron.  `ds` and `de` are the day offsets of the item's start and
end (`(dt - t0).days`); the pair of positions is swapped when the end maps
left of the start, and the width is their difference.  Returns
`(left, width)`. -/
def gantt_bar_span (content_x content_w total_days : ℚ) (ds de : ℚ) :
    ℚ × ℚ :=
  let left := x_pos content_x content_w total_days ds
  let right := x_pos content_x content_w total_days de
  let lr := if right < left then (right, left) else (left, right)
  (lr.1, lr.2 - lr.1)

/-- Slide-size selection of `build_ppt_from_spec` (lines 771-783).  The
module-level constant `WIDESCREEN_16x9` is `True`; the `size` string comes
from `(spec.get("slide") or \x7b\x7d).get("size", "16:9")`.  Dimensions are
in inches. -/
def WIDESCREEN_16x9 : Bool := true

/-- Look up a key in a `Value` dict; `none` when the key is absent.  This
is Python `d.get(k)` on a dict. -/
def dictGet (kvs : List (String × Value)) (k : String) : Option Value :=
  (kvs.find? (fun kv => kv.1 == k)).map (fun kv => kv.2)

/-- Python truthiness of a `Value`. -/
def pyTruthy : Value → Bool
  | .vnone => false
  | .vbool b => b
  | .vint n => n ≠ 0
  | .vfloat q => q ≠ 0
  | .vstr s => s ≠ ""
  | .vlist xs => !xs.isEmpty
  | .vdict kvs => !kvs.isEmpty

/-- `size = (spec.get("slide") or \x7b\x7d).get("size", "16:9")`: `none`
models the `AttributeError` raised when `spec["slide"]` is truthy but not a
dict. -/
def slide_size_field (spec : List (String × Value)) : Option Value :=
  match dictGet spec "slide" with
  | some v =>
    if pyTruthy v then
      match v with
      | .vdict kvs => some ((dictGet kvs "size").getD (.vstr "16:9"))
      | _ => none
    else some (.vstr "16:9")
  | none => some (.vstr "16:9")

/-- Python `v == lit` for a string literal `lit`: only equal-content
strings compare equal to a string. -/
def pyEqStr (v : Value) (lit : String) : Bool :=
  match v with
  | .vstr t => t == lit
  | _ => false

/-- The slide dimensions chosen by `build_ppt_from_spec`:
`WIDESCREEN_16x9 or size == "16:9"` selects 13.333 × 7.5 inches, the dead
`else` branch would select 10 × 7.5. -/
def slide_dims (spec : List (String × Value)) : Option (ℚ × ℚ) :=
  (slide_size_field spec).map (fun size =>
    if WIDESCREEN_16x9 || pyEqStr size "16:9"
    then (13333 / 1000, 15 / 2) else (10, 15 / 2))

end PttxGen

namespace LambdaFn

/-- The placeholder types `_shape_role_for_text` distinguishes. -/
inductive PlaceholderType where
  | title
  | centerTitle
  | subtitle
  | otherPH
deriving DecidableEq, Repr

/-- One run of the first paragraph of a text frame: `run.font.size` in
points, `none` when the run has no explicit size.  (`pt` of a set size is
always a number.) -/
structure RunModel where
  sizePt : Option ℚ
deriving DecidableEq, Repr

/-- The observable state of a shape during role classification.
`phType = none` models `shape.placeholder_format.type` raising (swallowed
by the first `try`), `paragraphs = none` models any exception inside the
font-size block (swallowed by the second `try`); each paragraph is the
list of its runs. -/
structure ShapeModel where
  is_placeholder : Bool
  phType : Option PlaceholderType
  has_text_frame : Bool
  paragraphs : Option (List (List RunModel))
deriving DecidableEq, Repr

/-- The run loop of `_shape_role_for_text`: for each run of the first
paragraph whose `font.size` is truthy (set and nonzero), test
`pt >= 28` then `pt >= 20`; a run below both thresholds does *not* stop
the scan — the loop continues with the next run, and only after the loop
does the function return `"body"`. -/
def roleFromRuns : List RunModel → String
  | [] => "body"
  | r :: rs =>
    match r.sizePt with
    | some p =>
      if p ≠ 0 then
        if 28 ≤ p then "title"
        else if 20 ≤ p then "heading"
        else roleFromRuns rs
      else roleFromRuns rs
    | none => roleFromRuns rs

/-- `lambda_function._shape_role_for_text`: placeholder-type lookup first
(title / center-title → `"title"`, subtitle → `"subtitle"`), otherwise the
run-size scan of `roleFromRuns`, defaulting to `"body"`; every lookup
failure is swallowed and falls through. -/
def shape_role_for_text (s : ShapeModel) : String :=
  let ph : Option String :=
    if s.is_placeholder then
      match s.phType with
      | some t =>
        if t = .title || t = .centerTitle then some "title"
        else if t = .subtitle then some "subtitle"
        else none
      | none => none
    else none
  match ph with
  | some r => r
  | none =>
    match s.paragraphs with
    | none => "body"
    | some ps =>
      if s.has_text_frame && !ps.isEmpty then
        roleFromRuns (ps.headD [])
      else "body"

end LambdaFn

example : LambdaFn.shape_role_for_text
    ⟨false, none, true, some [[⟨some 12⟩, ⟨some 30⟩]]⟩ = "title" := by decide
example : LambdaFn.shape_role_for_text
    ⟨true, some .centerTitle, true, some [[⟨some 12⟩]]⟩ = "title" := by decide

namespace PttxGen

/-- The fields of an element dict consulted by the cover-slide renderer and
the generic dispatcher. -/
structure ElemSpec where
  etype : Option String
  variant : Option String
  text : Option String
  subtype : Option String
deriving DecidableEq, Repr

/-- The owner/date metadata of a cover slide.  A slide spec carries
`some m` exactly when `s.get("meta", {})` is truthy (a non-empty dict). -/
structure MetaSpec where
  owner : Option String
  date : Option String
deriving DecidableEq, Repr

/-- The fields of a slide dict consulted by `build_ppt_from_spec` and
`render_cover_slide`. -/
structure SlideSpec where
  layout : Option String
  title : Option String
  accentColor : Option String
  meta : Option MetaSpec
  elements : List ElemSpec
deriving DecidableEq, Repr

/-- One shape added to a slide, by provenance: the four shapes the cover
renderer can add, the default title box of the generic path, and the
shapes produced by the per-element dispatcher `render_element`. -/
inductive Shape where
  | coverBand (accent : String)
  | coverTitle (text : String)
  | coverSubtitle (text : String)
  | coverFooter (owner date : String)
  | slideTitle (text : String)
  | textShape (e : ElemSpec)
  | tableShape (e : ElemSpec)
  | chartShape (e : ElemSpec)
deriving DecidableEq, Repr

/-- `pttx_generator.render_element`: dispatch on `type` and for charts on
`subtype`; unknown combinations add nothing. -/
def render_element (e : ElemSpec) : List Shape :=
  match e.etype with
  | some "text" => [.textShape e]
  | some "table" => [.tableShape e]
  | some "chart" =>
    match e.subtype with
    | some "gantt" => [.chartShape e]
    | some "pie" => [.chartShape e]
    | some "bar" => [.chartShape e]
    | some "line" => [.chartShape e]
    | _ => []
  | _ => []

/-- `el.get("type")=="text" and el.get("variant")=="heading"`. -/
def isHeadingText (e : ElemSpec) : Bool :=
  e.etype == some "text" && e.variant == some "heading"

/-- `el.get("type")=="text" and el.get("variant") in ("paragraph","rich")`. -/
def isParagraphOrRichText (e : ElemSpec) : Bool :=
  e.etype == some "text" &&
    (e.variant == some "paragraph" || e.variant == some "rich")

/-- `pttx_generator.render_cover_slide`: the accent band (default accent
`"#111827"`), a title textbox always added with the text of the first
heading-variant text element (empty when there is none), a subtitle
textbox added only when a paragraph- or rich-variant text element exists,
and the owner/date footer added only when `meta` is truthy.  Nothing else
is added: the element list is only *searched*, never dispatched. -/
def render_cover_slide (s : SlideSpec) : List Shape :=
  let title := s.elements.find? isHeadingText
  let subtitle := s.elements.find? isParagraphOrRichText
  [.coverBand (s.accentColor.getD "#111827"),
   .coverTitle ((title.bind (fun e => e.text)).getD "")]
  ++ (match subtitle with
      | some st => [.coverSubtitle (st.text.getD "")]
      | none => [])
  ++ (match s.meta with
      | some m => [.coverFooter (m.owner.getD "") (m.date.getD "")]
      | none => [])

/-- `pttx_generator.add_title_if_any`: skipped entirely when the title is
missing or falsy (empty). -/
def add_title_if_any (t : Option String) : List Shape :=
  match t with
  | some s => if s ≠ "" then [.slideTitle s] else []
  | none => []

/-- The per-slide body of the build loop in `build_ppt_from_spec`
(lines 794-809): a cover slide goes to `render_cover_slide`; any other
slide gets the default title box (only when no heading-variant element is
present) followed by the dispatcher's shapes for every element in list
order. -/
def build_slide (s : SlideSpec) : List Shape :=
  if s.layout == some "cover" then render_cover_slide s
  else
    (if s.elements.any isHeadingText then []
     else add_title_if_any s.title)
    ++ s.elements.flatMap render_element

end PttxGen

example : PttxGen.build_slide
    ⟨some "cover", some "T", none, none,
     [⟨some "table", none, none, none⟩,
      ⟨some "text", some "heading", some "Big", none⟩]⟩ =
    [.coverBand "#111827", .coverTitle "Big"] := by decide

/-!
## Fixed-point lemmas for `compact`

Every member that survives compaction is itself compacted and non-empty,
hence compaction is idempotent.
-/

namespace LambdaFn

theorem compactList_fixed (l : List Value)
    (h : ∀ y ∈ l, compact y = y ∧ isEmptyLike y = false) :
    compactList l = l := by
  induction l with
  | nil => simp [compactList]
  | cons x xs ih =>
    obtain ⟨hx, he⟩ := h x (by simp)
    simp only [compactList, hx, he, if_false, Bool.false_eq_true]
    rw [ih (fun y hy => h y (by simp [hy]))]

theorem compactKVs_fixed (l : List (String × Value))
    (h : ∀ kv ∈ l, compact kv.2 = kv.2 ∧ isEmptyLike kv.2 = false) :
    compactKVs l = l := by
  induction l with
  | nil => simp [compactKVs]
  | cons kv kvs ih =>
    obtain ⟨hx, he⟩ := h kv (by simp)
    obtain ⟨k, v⟩ := kv
    simp only [compactKVs]
    simp only at hx he
    simp only [hx, he, if_false, Bool.false_eq_true]
    rw [ih (fun y hy => h y (by simp [hy]))]

theorem compact_fix_aux :
    ∀ n : ℕ,
      (∀ v : Value, sizeOf v ≤ n → compact (compact v) = compact v) ∧
      (∀ xs : List Value, sizeOf xs ≤ n →
        ∀ y ∈ compactList xs, compact y = y ∧ isEmptyLike y = false) ∧
      (∀ kvs : List (String × Value), sizeOf kvs ≤ n →
        ∀ kv ∈ compactKVs kvs, compact kv.2 = kv.2 ∧
          isEmptyLike kv.2 = false) := by
  intro n
  induction n using Nat.strong_induction_on with
  | _ n ih =>
    refine ⟨?_, ?_, ?_⟩
    · intro v hv
      match v with
      | .vnone => simp [compact]
      | .vbool b => simp [compact]
      | .vint k => simp [compact]
      | .vfloat q => simp [compact]
      | .vstr s => simp [compact]
      | .vlist xs =>
        have hs : sizeOf xs < n := by
          have := Value.vlist.sizeOf_spec xs
          omega
        simp only [compact]
        rw [compactList_fixed _ ((ih (sizeOf xs) hs).2.1 xs le_rfl)]
      | .vdict kvs =>
        have hs : sizeOf kvs < n := by
          have := Value.vdict.sizeOf_spec kvs
          omega
        simp only [compact]
        rw [compactKVs_fixed _ ((ih (sizeOf kvs) hs).2.2 kvs le_rfl)]
    · intro xs hxs y hy
      match xs with
      | [] => simp [compactList] at hy
      | x :: xs' =>
        have hsz := List.cons.sizeOf_spec x xs'
        have hx : sizeOf x < n := by omega
        have hxs' : sizeOf xs' < n := by omega
        simp only [compactList] at hy
        by_cases hemp : isEmptyLike (compact x) = true
        · rw [if_pos hemp] at hy
          exact (ih (sizeOf xs') hxs').2.1 xs' le_rfl y hy
        · rw [if_neg hemp] at hy
          rcases List.mem_cons.mp hy with h1 | h2
          · subst h1
            refine ⟨(ih (sizeOf x) hx).1 x le_rfl, ?_⟩
            exact Bool.not_eq_true _ ▸ hemp
          · exact (ih (sizeOf xs') hxs').2.1 xs' le_rfl y h2
    · intro kvs hkvs kv hkv
      match kvs with
      | [] => simp [compactKVs] at hkv
      | (k, v) :: kvs' =>
        have hsz := List.cons.sizeOf_spec (k, v) kvs'
        have hp := Prod.mk.sizeOf_spec k v
        have hv : sizeOf v < n := by omega
        have hkvs' : sizeOf kvs' < n := by omega
        simp only [compactKVs] at hkv
        by_cases hemp : isEmptyLike (compact v) = true
        · rw [if_pos hemp] at hkv
          exact (ih (sizeOf kvs') hkvs').2.2 kvs' le_rfl kv hkv
        · rw [if_neg hemp] at hkv
          rcases List.mem_cons.mp hkv with h1 | h2
          · subst h1
            refine ⟨(ih (sizeOf v) hv).1 v le_rfl, ?_⟩
            exact Bool.not_eq_true _ ▸ hemp
          · exact (ih (sizeOf kvs') hkvs').2.2 kvs' le_rfl kv h2

theorem compact_idem (v : Value) : compact (compact v) = compact v :=
  (compact_fix_aux (sizeOf v)).1 v le_rfl

end LambdaFn

/-!
## Claim theorems
-/

/-- C1 (code bug): the normalizer drops the null `layout` key, but the
exact-case string `"True"` is NOT converted to a boolean — the source
lowercases the value first (`obj.strip().lower()`) and then compares it
with `"True"`, a comparison that can never succeed, so on the spec's own
example the `flag` key keeps the string `"True"` instead of becoming
`true`, contradicting both the claim and the function's docstring. -/
theorem cleaning_JSON_example_flag_not_converted :
    PttxGen.cleaning_JSON
      (.vdict [("layout", .vnone), ("title", .vstr "T"),
               ("flag", .vstr "True")]) =
      .vdict [("title", .vstr "T"), ("flag", .vstr "True")] ∧
    PttxGen.cleaning_JSON
      (.vdict [("layout", .vnone), ("title", .vstr "T"),
               ("flag", .vstr "True")]) ≠
      .vdict [("title", .vstr "T"), ("flag", .vbool true)] := by
  have hT : PttxGen.normalize (.vstr "T") = .vstr "T" := by
    simp only [PttxGen.normalize]
    rw [if_neg (by decide), if_neg (by decide)]
  have hTrue : PttxGen.normalize (.vstr "True") = .vstr "True" := by
    simp only [PttxGen.normalize]
    rw [if_neg (by decide), if_neg (by decide)]
  constructor
  · simp [PttxGen.cleaning_JSON, PttxGen.normalize, PttxGen.normalizeKVs,
      Value.isNone, hT, hTrue]
  · simp [PttxGen.cleaning_JSON, PttxGen.normalize, PttxGen.normalizeKVs,
      Value.isNone, hT, hTrue]

/-- C2 (code bug): compaction is indeed idempotent and does keep
empty-string values, but a key holding the literal `0` IS removed: the
membership test `cv in (None, False, [], ...)` uses Python `==`, and
`0 == False`, so `compact` on the dict `\x7b"count": 0, "label": ""\x7d`
drops the `count` key, contradicting the claim (and the docstring's
"remove keys with None / False / empty list/dict"). -/
theorem compact_removes_zero_valued_key :
    LambdaFn.compact (.vdict [("count", .vint 0), ("label", .vstr "")]) =
      .vdict [("label", .vstr "")] ∧
    (∀ v : Value, LambdaFn.compact (LambdaFn.compact v) =
      LambdaFn.compact v) :=
  ⟨by simp [LambdaFn.compact, LambdaFn.compactKVs, LambdaFn.isEmptyLike],
   LambdaFn.compact_idem⟩

/-- C8 (confirmed, stated without the redundant inversion hypothesis): for
every content frame, time range, and pair of start/end day offsets, the
gantt bar computed by `render_chart_gantt` has the same `(left, width)` as
the bar for the item with start and end swapped, and its width is never
negative — the swap `if right < left: left, right = right, left` makes the
span symmetric and the difference non-negative. -/
theorem gantt_bar_span_swap_symm_nonneg
    (content_x content_w total_days ds de : ℚ) :
    PttxGen.gantt_bar_span content_x content_w total_days ds de =
      PttxGen.gantt_bar_span content_x content_w total_days de ds ∧
    0 ≤ (PttxGen.gantt_bar_span content_x content_w total_days ds de).2 := by
  simp only [PttxGen.gantt_bar_span]
  rcases lt_trichotomy (PttxGen.x_pos content_x content_w total_days ds)
      (PttxGen.x_pos content_x content_w total_days de) with h | h | h
  · rw [if_neg (not_lt.mpr h.le), if_pos h]
    exact ⟨rfl, by simpa using h.le⟩
  · rw [h, if_neg (lt_irrefl _)]
    exact ⟨rfl, by simp⟩
  · rw [if_pos h, if_neg (not_lt.mpr h.le)]
    exact ⟨rfl, by simpa using h.le⟩

/-- C6 (counterexample): a spec whose `slide.size` is `"4:3"` still builds
a 13.333 × 7.5 deck, not the claimed 10 × 7.5 — the module constant
`WIDESCREEN_16x9 = True` short-circuits the size test. -/
theorem slide_dims_4_3_still_widescreen :
    PttxGen.slide_dims [("slide", .vdict [("size", .vstr "4:3")])] =
      some (13333 / 1000, 15 / 2) ∧
    PttxGen.slide_dims [("slide", .vdict [("size", .vstr "4:3")])] ≠
      some (10, 15 / 2) := by
  constructor
  · rfl
  · intro h
    rw [show PttxGen.slide_dims [("slide", .vdict [("size", .vstr "4:3")])] =
      some (13333 / 1000, 15 / 2) from rfl] at h
    simp only [Option.some.injEq, Prod.mk.injEq] at h
    norm_num at h

/-- C6 (amended): whenever the size lookup succeeds, the built deck's slide
dimensions are 13.333 × 7.5 regardless of the `slide.size` field, because
the module-level `WIDESCREEN_16x9` flag is `True` and is tested first; the
4:3 branch (10 × 7.5) is dead code. -/
theorem slide_dims_always_widescreen (spec : List (String × Value))
    (d : ℚ × ℚ) (h : PttxGen.slide_dims spec = some d) :
    d = (13333 / 1000, 15 / 2) := by
  unfold PttxGen.slide_dims at h
  cases hf : PttxGen.slide_size_field spec with
  | none => rw [hf] at h; exact absurd h (by simp)
  | some size =>
    rw [hf] at h
    simp [PttxGen.WIDESCREEN_16x9] at h
    exact h.symm

/-- Witness for C6's amended theorem at the concrete 4:3 spec. -/
theorem slide_dims_always_widescreen_witness :
    PttxGen.slide_dims [("slide", .vdict [("size", .vstr "4:3")])] =
      some (13333 / 1000, 15 / 2) ∧
    ((13333 / 1000 : ℚ), (15 / 2 : ℚ)) = (13333 / 1000, 15 / 2) :=
  ⟨rfl, slide_dims_always_widescreen
    [("slide", .vdict [("size", .vstr "4:3")])] _ rfl⟩

/-!
## Bounds extracted from the quarter regex
-/

theorem digitVal_le_nine {c : Char} {v : ℕ}
    (h : PttxGen.digitVal? c = some v) : v ≤ 9 := by
  unfold PttxGen.digitVal? at h
  split at h
  · next hc =>
    simp only [Bool.and_eq_true, decide_eq_true_eq] at hc
    simp only [Option.some.injEq] at h
    omega
  · exact absurd h (by simp)

theorem matchQuarter_bounds {s : String} {y q : ℕ}
    (h : PttxGen.matchQuarter s = some (y, q)) :
    y ≤ 9999 ∧ 1 ≤ q ∧ q ≤ 4 := by
  unfold PttxGen.matchQuarter at h
  split at h
  case h_2 => exact absurd h (by simp)
  case h_1 c1 c2 c3 c4 rest =>
    split at h
    case h_2 => exact absurd h (by simp)
    case h_1 a b c d ha hb hc hd =>
      split at h
      · exact absurd h (by simp)
      · split at h
        case h_2 => exact absurd h (by simp)
        case h_1 qc nc =>
          split at h
          · split at h
            case h_2 => exact absurd h (by simp)
            case h_1 n hn =>
              split at h
              · next hq =>
                simp only [Bool.and_eq_true, decide_eq_true_eq] at hq
                simp only [Option.some.injEq, Prod.mk.injEq] at h
                have := digitVal_le_nine ha
                have := digitVal_le_nine hb
                have := digitVal_le_nine hc
                have := digitVal_le_nine hd
                omega
              · exact absurd h (by simp)
          · exact absurd h (by simp)

theorem daysInMonth_ge_28 (y : Int) (m : Nat) : 28 ≤ daysInMonth y m := by
  unfold daysInMonth
  split
  · split <;> omega
  · split <;> omega

/-- C7 (amended): for every string matching the quarter pattern whose
4-digit year is at least 1, `parse_time` returns the first day of the
first month of that quarter (months 1, 4, 7, 10 for Q1..Q4), for every
behaviour of the external date libraries.  (For year `0000` the
`datetime` constructor raises, see the counterexample.) -/
theorem parse_time_quarter_first_day (fromts : ℚ → Option PyDatetime)
    (du : Option (String → Option PyDatetime))
    (iso : String → Option PyDatetime) (now : PyDatetime)
    (s : String) (y q : ℕ)
    (h : PttxGen.matchQuarter (pyStrip s) = some (y, q)) (hy : 1 ≤ y) :
    PttxGen.parse_time fromts du iso now (.str s) =
      some ⟨(y : Int), (q - 1) * 3 + 1, 1⟩ := by
  obtain ⟨hy2, hq1, hq4⟩ := matchQuarter_bounds h
  simp only [PttxGen.parse_time, h]
  unfold datetime_mk
  rw [if_pos]
  simp only [Bool.and_eq_true, decide_eq_true_eq]
  have hd := daysInMonth_ge_28 (y : Int) ((q - 1) * 3 + 1)
  refine ⟨⟨⟨⟨⟨?_, ?_⟩, ?_⟩, ?_⟩, ?_⟩, ?_⟩ <;> omega

/-- Witness for C7's amended theorem at `"2025 q3"` (case-insensitive
match): the result is 2025-07-01. -/
theorem parse_time_quarter_first_day_witness :
    PttxGen.matchQuarter (pyStrip "2025 q3") = some (2025, 3) ∧ 1 ≤ 2025 ∧
    PttxGen.parse_time (fun _ => none) none (fun _ => none) ⟨2024, 1, 1⟩
      (.str "2025 q3") = some ⟨2025, 7, 1⟩ :=
  ⟨by decide, by decide,
   parse_time_quarter_first_day (fun _ => none) none (fun _ => none)
     ⟨2024, 1, 1⟩ "2025 q3" 2025 3 (by decide) (by decide)⟩

/-- C7 (counterexample): the string `"0000 Q1"` matches the quarter
pattern (`\d\x7b4\x7d` accepts `0000`), but `parse_time` does not return the
first day of Q1 of year 0 — `datetime(0, 1, 1)` raises `ValueError`
(year 0 is below `MINYEAR = 1`), modelled as `none`. -/
theorem parse_time_quarter_year_zero :
    PttxGen.matchQuarter (pyStrip "0000 Q1") = some (0, 1) ∧
    PttxGen.parse_time (fun _ => none) none (fun _ => none) ⟨2024, 1, 1⟩
      (.str "0000 Q1") = none := by
  exact ⟨by decide, by decide⟩

/-- C4 (amended): `parse_time` never raises on `None` (it returns `now`),
on weird-typed inputs, or on any string whose quarter-pattern match — if
there is one — carries a year of at least 1; in particular every string
that fails all parsing strategies degrades to `now`.  This holds for
every behaviour of the external date libraries.  (The quarter branch with
year `0000` does raise, see the counterexample.) -/
theorem parse_time_total_on_safe_inputs (fromts : ℚ → Option PyDatetime)
    (du : Option (String → Option PyDatetime))
    (iso : String → Option PyDatetime) (now : PyDatetime) :
    PttxGen.parse_time fromts du iso now .none_ = some now ∧
    (∀ s : String,
      (PttxGen.matchQuarter (pyStrip s)).all (fun p => 1 ≤ p.1) = true →
      (PttxGen.parse_time fromts du iso now (.str s)).isSome = true) ∧
    (∀ r : String,
      (PttxGen.parse_time fromts du iso now (.other r)).isSome = true) := by
  refine ⟨rfl, ?_, ?_⟩
  · intro s hs
    cases hm : PttxGen.matchQuarter (pyStrip s) with
    | some p =>
      obtain ⟨y, q⟩ := p
      rw [hm] at hs
      simp only [Option.all_some, decide_eq_true_eq] at hs
      obtain ⟨hy2, hq1, hq4⟩ := matchQuarter_bounds hm
      simp only [PttxGen.parse_time, hm]
      unfold datetime_mk
      rw [if_pos]
      · simp
      · simp only [Bool.and_eq_true, decide_eq_true_eq]
        have hd := daysInMonth_ge_28 (y : Int) ((q - 1) * 3 + 1)
        refine ⟨⟨⟨⟨⟨?_, ?_⟩, ?_⟩, ?_⟩, ?_⟩, ?_⟩ <;> omega
    | none =>
      simp only [PttxGen.parse_time, hm]
      cases hdu : du.bind (fun f => f (pyStrip s)) with
      | some d => simp
      | none =>
        cases hiso : iso (pyStrip s) with
        | some d => simp [hiso]
        | none => simp [hiso]
  · intro r
    simp only [PttxGen.parse_time]
    cases du <;> simp

/-- Witness for C4's amended theorem: `parse_time(None)` and
`parse_time("not-a-date-at-all")` (which matches no quarter pattern) both
return a concrete timestamp. -/
theorem parse_time_total_witness :
    (PttxGen.matchQuarter (pyStrip "not-a-date-at-all")).all
      (fun p => 1 ≤ p.1) = true ∧
    PttxGen.parse_time (fun _ => none) none (fun _ => none) ⟨2024, 1, 1⟩
      .none_ = some ⟨2024, 1, 1⟩ ∧
    (PttxGen.parse_time (fun _ => none) none (fun _ => none) ⟨2024, 1, 1⟩
      (.str "not-a-date-at-all")).isSome = true :=
  ⟨by decide,
   (parse_time_total_on_safe_inputs (fun _ => none) none (fun _ => none)
     ⟨2024, 1, 1⟩).1,
   (parse_time_total_on_safe_inputs (fun _ => none) none (fun _ => none)
     ⟨2024, 1, 1⟩).2.1 "not-a-date-at-all" (by decide)⟩

/-- C4 (counterexample): `parse_time` does NOT never raise — on the string
`"0000 Q1"` the quarter branch executes `datetime(0, 1, 1)` outside any
`try`, which raises `ValueError` (year 0 is below `MINYEAR`); the claim
says every failing string degrades to `now`. -/
theorem parse_time_raises_on_year_zero :
    PttxGen.parse_time (fun _ => none) none (fun _ => none) ⟨2024, 1, 1⟩
      (.str "0000 Q1") = none := by decide

namespace LambdaFn

/-- Spec-side description (amended wording of the claim): the first run of
the first paragraph whose font size is set, truthy (nonzero) and at least
20pt. -/
def firstBigRun (runs : List RunModel) : Option ℚ :=
  (runs.find? (fun r =>
    match r.sizePt with
    | some p => decide (p ≠ 0) && decide (20 ≤ p)
    | none => false)).bind (fun r => r.sizePt)

/-- Spec-side role classifier, written from the amended claim wording:
placeholder lookup first; otherwise the first run with a set, nonzero size
of at least 20pt decides (`≥ 28` → title, else heading); if no run of the
first paragraph qualifies — or any lookup fails — the role is `"body"`. -/
def roleSpecAmended (s : ShapeModel) : String :=
  if s.is_placeholder &&
      (s.phType == some .title || s.phType == some .centerTitle) then
    "title"
  else if s.is_placeholder && s.phType == some .subtitle then "subtitle"
  else
    match s.paragraphs with
    | none => "body"
    | some ps =>
      if s.has_text_frame && !ps.isEmpty then
        match firstBigRun (ps.headD []) with
        | some p => if 28 ≤ p then "title" else "heading"
        | none => "body"
      else "body"

theorem roleFromRuns_eq_firstBigRun (runs : List RunModel) :
    roleFromRuns runs =
      match firstBigRun runs with
      | some p => if 28 ≤ p then "title" else "heading"
      | none => "body" := by
  induction runs with
  | nil => simp [roleFromRuns, firstBigRun]
  | cons r rs ih =>
    cases hr : r.sizePt with
    | none =>
      simp only [roleFromRuns, firstBigRun, List.find?, hr]
      simpa [firstBigRun] using ih
    | some p =>
      by_cases h0 : p = 0
      · subst h0
        simp only [roleFromRuns, firstBigRun, List.find?, hr]
        simpa [firstBigRun] using ih
      · by_cases h20 : 20 ≤ p
        · by_cases h28 : 28 ≤ p
          · simp [roleFromRuns, firstBigRun, List.find?, hr, h0, h20, h28]
          · simp [roleFromRuns, firstBigRun, List.find?, hr, h0, h20, h28,
              show ¬28 ≤ p from h28]
        · have h28 : ¬28 ≤ p := fun h => h20 (by linarith)
          simp only [roleFromRuns, firstBigRun, List.find?, hr]
          simp only [h0, h20, h28, decide_eq_true_eq, if_neg, if_false]
          simpa [firstBigRun, h0, h20] using ih

/-- C9 (amended): the code's role classifier agrees everywhere with the
spec-side classifier `roleSpecAmended` — placeholder types win, then the
*first qualifying run* (set, nonzero, ≥ 20pt) of the first paragraph
decides between title (≥ 28) and heading, runs below 20pt are skipped
rather than forcing "body", and any swallowed lookup failure yields
"body". -/
theorem shape_role_for_text_matches_spec (s : ShapeModel) :
    shape_role_for_text s = roleSpecAmended s := by
  obtain ⟨pl, pht, htf, ps⟩ := s
  cases pl with
  | false =>
    simp only [shape_role_for_text, roleSpecAmended]
    cases ps with
    | none => simp
    | some ps' =>
      simp [roleFromRuns_eq_firstBigRun]
  | true =>
    cases pht with
    | none =>
      simp only [shape_role_for_text, roleSpecAmended]
      cases ps with
      | none => simp
      | some ps' => simp [roleFromRuns_eq_firstBigRun]
    | some t =>
      cases t with
      | title => simp [shape_role_for_text, roleSpecAmended]
      | centerTitle => simp [shape_role_for_text, roleSpecAmended]
      | subtitle => simp [shape_role_for_text, roleSpecAmended]
      | otherPH =>
        simp only [shape_role_for_text, roleSpecAmended]
        cases ps with
        | none => simp
        | some ps' => simp [roleFromRuns_eq_firstBigRun]

end LambdaFn

/-- C9 (counterexample): a non-placeholder shape whose first paragraph has
a first run of 12pt and a second run of 30pt is classified `"title"` — the
scan continues past the sub-20pt first run — whereas the claim ("the first
run's font size decides — ... anything else body") requires `"body"`. -/
theorem shape_role_uses_later_runs :
    LambdaFn.shape_role_for_text
      ⟨false, none, true, some [[⟨some 12⟩, ⟨some 30⟩]]⟩ = "title" ∧
    ("title" : String) ≠ "body" := by
  exact ⟨by decide, by decide⟩

namespace PttxGen

/-- The shapes that `render_cover_slide` can add, as opposed to shapes
coming from `add_title_if_any` or the per-element dispatcher. -/
def isCoverShape : Shape → Bool
  | .coverBand _ => true
  | .coverTitle _ => true
  | .coverSubtitle _ => true
  | .coverFooter _ _ => true
  | _ => false

end PttxGen

/-- C10 (confirmed): for every slide spec whose layout is `"cover"`, the
built slide is exactly the cover renderer's output — the accent band, the
title box filled from the first heading-variant text element, an optional
subtitle box from the first paragraph/rich text element, an optional
owner/date footer, and nothing else: every shape is a cover shape (no
table, chart, text-element or default-title shape), there are at most
four shapes, and the generic dispatcher `render_element` contributes
none. -/
theorem build_slide_cover_only (s : PttxGen.SlideSpec)
    (h : s.layout = some "cover") :
    PttxGen.build_slide s = PttxGen.render_cover_slide s ∧
    (∀ sh ∈ PttxGen.build_slide s, PttxGen.isCoverShape sh = true) ∧
    (PttxGen.build_slide s).length ≤ 4 := by
  have hb : PttxGen.build_slide s = PttxGen.render_cover_slide s := by
    simp [PttxGen.build_slide, h]
  refine ⟨hb, ?_, ?_⟩
  · intro sh hsh
    rw [hb] at hsh
    unfold PttxGen.render_cover_slide at hsh
    rcases List.mem_append.mp hsh with h1 | h1
    · rcases List.mem_append.mp h1 with h2 | h2
      · simp only [List.mem_cons, List.not_mem_nil, or_false] at h2
        rcases h2 with rfl | rfl <;> rfl
      · cases hsub : s.elements.find? PttxGen.isParagraphOrRichText with
        | none => rw [hsub] at h2; simp at h2
        | some st =>
          rw [hsub] at h2
          simp only [List.mem_singleton] at h2
          subst h2; rfl
    · cases hmeta : s.meta with
      | none => rw [hmeta] at h1; simp at h1
      | some m =>
        rw [hmeta] at h1
        simp only [List.mem_singleton] at h1
        subst h1; rfl
  · rw [hb]
    unfold PttxGen.render_cover_slide
    cases hsub : s.elements.find? PttxGen.isParagraphOrRichText <;>
      cases hmeta : s.meta <;> simp

/-- Witness for C10 at a concrete cover spec that also carries a table, a
chart and a bullets element: none of them produce a shape. -/
theorem build_slide_cover_only_witness :
    (PttxGen.SlideSpec.mk (some "cover") (some "Roadmap") (some "#0EA5E9")
      (some ⟨some "owner", some "date"⟩)
      [⟨some "table", none, none, none⟩,
       ⟨some "text", some "heading", some "Big Title", none⟩,
       ⟨some "chart", none, none, some "gantt"⟩,
       ⟨some "text", some "bullets", none, none⟩]).layout = some "cover" ∧
    (PttxGen.build_slide
      (PttxGen.SlideSpec.mk (some "cover") (some "Roadmap") (some "#0EA5E9")
        (some ⟨some "owner", some "date"⟩)
        [⟨some "table", none, none, none⟩,
         ⟨some "text", some "heading", some "Big Title", none⟩,
         ⟨some "chart", none, none, some "gantt"⟩,
         ⟨some "text", some "bullets", none, none⟩]) =
      PttxGen.render_cover_slide
        (PttxGen.SlideSpec.mk (some "cover") (some "Roadmap")
          (some "#0EA5E9") (some ⟨some "owner", some "date"⟩)
          [⟨some "table", none, none, none⟩,
           ⟨some "text", some "heading", some "Big Title", none⟩,
           ⟨some "chart", none, none, some "gantt"⟩,
           ⟨some "text", some "bullets", none, none⟩]) ∧
     (∀ sh ∈ PttxGen.build_slide
        (PttxGen.SlideSpec.mk (some "cover") (some "Roadmap")
          (some "#0EA5E9") (some ⟨some "owner", some "date"⟩)
          [⟨some "table", none, none, none⟩,
           ⟨some "text", some "heading", some "Big Title", none⟩,
           ⟨some "chart", none, none, some "gantt"⟩,
           ⟨some "text", some "bullets", none, none⟩]),
        PttxGen.isCoverShape sh = true) ∧
     (PttxGen.build_slide
        (PttxGen.SlideSpec.mk (some "cover") (some "Roadmap")
          (some "#0EA5E9") (some ⟨some "owner", some "date"⟩)
          [⟨some "table", none, none, none⟩,
           ⟨some "text", some "heading", some "Big Title", none⟩,
           ⟨some "chart", none, none, some "gantt"⟩,
           ⟨some "text", some "bullets", none, none⟩])).length ≤ 4) :=
  ⟨rfl, build_slide_cover_only _ rfl⟩

/-!
## `to_rgb` totality on hex input
-/

theorem hexDigitVal_char_facts {c : Char} {v : ℕ}
    (h : PttxGen.hexDigitVal? c = some v) :
    pyIsSpace c = false ∧ c ≠ '-' ∧ c ≠ '+' ∧ c ≠ 'x' ∧ c ≠ 'X' ∧
      c ≠ '_' := by
  have hr : (48 ≤ c.toNat ∧ c.toNat ≤ 57) ∨ (97 ≤ c.toNat ∧ c.toNat ≤ 102) ∨
      (65 ≤ c.toNat ∧ c.toNat ≤ 70) := by
    unfold PttxGen.hexDigitVal? at h
    split at h
    · next h1 =>
      simp only [Bool.and_eq_true, decide_eq_true_eq] at h1
      exact Or.inl h1
    · split at h
      · next h2 =>
        simp only [Bool.and_eq_true, decide_eq_true_eq] at h2
        exact Or.inr (Or.inl h2)
      · split at h
        · next h3 =>
          simp only [Bool.and_eq_true, decide_eq_true_eq] at h3
          exact Or.inr (Or.inr h3)
        · exact absurd h (by simp)
  refine ⟨?_, ?_, ?_, ?_, ?_, ?_⟩
  · simp only [pyIsSpace, Bool.or_eq_false_iff, decide_eq_false_iff_not]
    refine ⟨⟨⟨⟨⟨?_, ?_⟩, ?_⟩, ?_⟩, ?_⟩, ?_⟩ <;> (rintro rfl; revert hr; decide)
  · rintro rfl; revert hr; decide
  · rintro rfl; revert hr; decide
  · rintro rfl; revert hr; decide
  · rintro rfl; revert hr; decide
  · rintro rfl; revert hr; decide

theorem pyIntHex_two_hex {c1 c2 : Char} {v1 v2 : ℕ}
    (h1 : PttxGen.hexDigitVal? c1 = some v1)
    (h2 : PttxGen.hexDigitVal? c2 = some v2) :
    PttxGen.pyIntHex ⟨[c1, c2]⟩ = some ((16 * v1 + v2 : ℕ) : ℤ) := by
  obtain ⟨hs1, hm1, hp1, hx1, hX1, hu1⟩ := hexDigitVal_char_facts h1
  obtain ⟨hs2, hm2, hp2, hx2, hX2, hu2⟩ := hexDigitVal_char_facts h2
  simp [PttxGen.pyIntHex, PttxGen.hexDigitsAcc, List.dropWhile, hs1, hs2,
    hm1, hp1, hx2, hX2, hu1, hu2, h1, h2]

/-- C5 (amended): `to_rgb("#FFF")` equals `to_rgb("#FFFFFF")` (3-digit
forms double each character), the leading `#` is optional, any other
*length* is coerced to the default dark color `#1B1B1B`, and `to_rgb`
returns a triple without raising on every string whose content after
stripping leading `#` consists of hex digits; a 6-character (or doubled
3-character) input containing a non-hex character raises instead — see
the counterexample. -/
theorem to_rgb_amended :
    PttxGen.to_rgb "#FFF" = PttxGen.to_rgb "#FFFFFF" ∧
    PttxGen.to_rgb "#FFF" = some (255, 255, 255) ∧
    PttxGen.to_rgb "bogus" = some (27, 27, 27) ∧
    ∀ s : String,
      (∀ c ∈ s.data.dropWhile (fun c => c = '#'),
        (PttxGen.hexDigitVal? c).isSome = true) →
      (PttxGen.to_rgb s).isSome = true := by
  refine ⟨by decide, by decide, by decide, ?_⟩
  intro s hs
  simp only [PttxGen.to_rgb]
  generalize hT : s.data.dropWhile (fun c => c = '#') = t at hs ⊢
  have hhex1 : ∀ c ∈ (if t.length = 3 then t.flatMap (fun c => [c, c])
      else t), (PttxGen.hexDigitVal? c).isSome = true := by
    split
    · intro c hc
      simp only [List.mem_flatMap, List.mem_cons, List.not_mem_nil,
        or_false] at hc
      obtain ⟨a, ha, rfl | rfl⟩ := hc <;> exact hs _ ha
    · exact hs
  generalize hG : (if t.length = 3 then t.flatMap (fun c => [c, c])
      else t) = s1 at hhex1 ⊢
  by_cases h6 : s1.length = 6
  · rw [if_neg (not_not_intro h6)]
    obtain ⟨a, b, c, d, e, f, rfl⟩ :
        ∃ a b c d e f, s1 = [a, b, c, d, e, f] := by
      rcases s1 with _ | ⟨a, _ | ⟨b, _ | ⟨c, _ | ⟨d, _ | ⟨e, _ | ⟨f,
        _ | ⟨g, l⟩⟩⟩⟩⟩⟩⟩ <;> simp at h6
      exact ⟨a, b, c, d, e, f, rfl⟩
    obtain ⟨va, hva⟩ := Option.isSome_iff_exists.mp (hhex1 a (by simp))
    obtain ⟨vb, hvb⟩ := Option.isSome_iff_exists.mp (hhex1 b (by simp))
    obtain ⟨vc, hvc⟩ := Option.isSome_iff_exists.mp (hhex1 c (by simp))
    obtain ⟨vd, hvd⟩ := Option.isSome_iff_exists.mp (hhex1 d (by simp))
    obtain ⟨ve, hve⟩ := Option.isSome_iff_exists.mp (hhex1 e (by simp))
    obtain ⟨vf, hvf⟩ := Option.isSome_iff_exists.mp (hhex1 f (by simp))
    have t1 : [a, b, c, d, e, f].take 2 = [a, b] := rfl
    have t2 : ([a, b, c, d, e, f].drop 2).take 2 = [c, d] := rfl
    have t3 : ([a, b, c, d, e, f].drop 4).take 2 = [e, f] := rfl
    rw [t1, t2, t3, pyIntHex_two_hex hva hvb, pyIntHex_two_hex hvc hvd,
      pyIntHex_two_hex hve hvf]
    rfl
  · rw [if_pos h6]
    decide

/-- C5 (counterexample): `to_rgb` does NOT return a triple on every input
string — on `"zzzzzz"` (length 6, non-hex) the unguarded `int(s[0:2], 16)`
raises `ValueError`, modelled as `none`; the claim promises any other
length/format is coerced to the default color. -/
theorem to_rgb_raises_on_non_hex : PttxGen.to_rgb "zzzzzz" = none := by
  decide

/-- Witness for C5's amended theorem: the all-hex string `"0EA5E9"` (no
`#`) satisfies the hex-digit hypothesis and yields a triple. -/
theorem to_rgb_amended_witness :
    (∀ c ∈ "0EA5E9".data.dropWhile (fun c => c = '#'),
      (PttxGen.hexDigitVal? c).isSome = true) ∧
    (PttxGen.to_rgb "0EA5E9").isSome = true :=
  ⟨by decide, to_rgb_amended.2.2.2 "0EA5E9" (by decide)⟩

/-!
## Flat-spec grouping: ascending key order characterization
-/

namespace PttxGen

theorem lookupGroup_cons_eq (k : Int) (g : List FlatElem)
    (d : List (Int × List FlatElem)) : lookupGroup ((k, g) :: d) k = g := by
  simp [lookupGroup, List.find?_cons_of_pos]

theorem lookupGroup_cons_ne {k k' : Int} (hne : k' ≠ k)
    (g : List FlatElem) (d : List (Int × List FlatElem)) :
    lookupGroup ((k', g) :: d) k = lookupGroup d k := by
  simp only [lookupGroup]
  rw [List.find?_cons_of_neg]
  simp [hne]

theorem addToGroup_keys (d : List (Int × List FlatElem)) (k : Int)
    (e : FlatElem) :
    (addToGroup d k e).map Prod.fst =
      if k ∈ d.map Prod.fst then d.map Prod.fst
      else d.map Prod.fst ++ [k] := by
  induction d with
  | nil => simp [addToGroup]
  | cons p d ih =>
    obtain ⟨k', g⟩ := p
    by_cases hk : k' = k
    · subst hk
      simp [addToGroup]
    · have hk2 : ¬(k = k') := fun h => hk h.symm
      simp only [addToGroup, if_neg hk, List.map_cons]
      rw [ih]
      simp only [List.mem_cons]
      by_cases hm : k ∈ d.map Prod.fst
      · rw [if_pos hm, if_pos (Or.inr hm)]
      · rw [if_neg hm, if_neg (by tauto), List.cons_append]

theorem lookupGroup_addToGroup_same (d : List (Int × List FlatElem))
    (k : Int) (e : FlatElem) :
    lookupGroup (addToGroup d k e) k = lookupGroup d k ++ [e] := by
  induction d with
  | nil => simp [addToGroup, lookupGroup]
  | cons p d ih =>
    obtain ⟨k', g⟩ := p
    by_cases hk : k' = k
    · subst hk
      simp only [addToGroup, eq_self_iff_true, if_true]
      rw [lookupGroup_cons_eq, lookupGroup_cons_eq]
    · simp only [addToGroup, if_neg hk]
      rw [lookupGroup_cons_ne hk, lookupGroup_cons_ne hk, ih]

theorem lookupGroup_addToGroup_ne (d : List (Int × List FlatElem))
    {k k' : Int} (e : FlatElem) (hne : k' ≠ k) :
    lookupGroup (addToGroup d k e) k' = lookupGroup d k' := by
  induction d with
  | nil =>
    simp only [addToGroup]
    rw [lookupGroup_cons_ne (fun h => hne h.symm)]
  | cons p d ih =>
    obtain ⟨k2, g⟩ := p
    by_cases hk : k2 = k
    · subst hk
      simp only [addToGroup, eq_self_iff_true, if_true]
      by_cases h2 : k2 = k'
      · exact absurd h2.symm hne
      · rw [lookupGroup_cons_ne h2, lookupGroup_cons_ne h2]
    · simp only [addToGroup, if_neg hk]
      by_cases h2 : k2 = k'
      · subst h2
        rw [lookupGroup_cons_eq, lookupGroup_cons_eq]
      · rw [lookupGroup_cons_ne h2, lookupGroup_cons_ne h2, ih]

theorem foldl_addToGroup_lookup (es : List FlatElem) :
    ∀ (d : List (Int × List FlatElem)) (k : Int),
      lookupGroup (es.foldl (fun d el => addToGroup d el.idx el) d) k =
        lookupGroup d k ++ es.filter (fun e => e.idx == k) := by
  induction es with
  | nil => intro d k; simp
  | cons e es ih =>
    intro d k
    simp only [List.foldl_cons, List.filter]
    by_cases hk : e.idx = k
    · rw [ih]
      subst hk
      rw [lookupGroup_addToGroup_same]
      simp [List.append_assoc]
    · rw [ih, lookupGroup_addToGroup_ne _ _ (fun h => hk h.symm)]
      have : (e.idx == k) = false := by simp [hk]
      rw [this]

theorem foldl_addToGroup_keys_mem (es : List FlatElem) :
    ∀ (d : List (Int × List FlatElem)) (k : Int),
      k ∈ (es.foldl (fun d el => addToGroup d el.idx el) d).map Prod.fst ↔
        k ∈ d.map Prod.fst ∨ k ∈ es.map FlatElem.idx := by
  induction es with
  | nil => intro d k; simp
  | cons e es ih =>
    intro d k
    simp only [List.foldl_cons, List.map_cons, List.mem_cons]
    rw [ih]
    rw [addToGroup_keys]
    by_cases hm : e.idx ∈ d.map Prod.fst
    · rw [if_pos hm]
      constructor
      · rintro (h | h)
        · exact Or.inl h
        · exact Or.inr (Or.inr h)
      · rintro (h | rfl | h)
        · exact Or.inl h
        · exact Or.inl hm
        · exact Or.inr h
    · rw [if_neg hm]
      simp only [List.mem_append, List.mem_singleton]
      tauto

theorem foldl_addToGroup_keys_nodup (es : List FlatElem) :
    ∀ (d : List (Int × List FlatElem)), (d.map Prod.fst).Nodup →
      ((es.foldl (fun d el => addToGroup d el.idx el) d).map
        Prod.fst).Nodup := by
  induction es with
  | nil => intro d h; simpa using h
  | cons e es ih =>
    intro d hd
    simp only [List.foldl_cons]
    apply ih
    rw [addToGroup_keys]
    by_cases hm : e.idx ∈ d.map Prod.fst
    · rw [if_pos hm]; exact hd
    · rw [if_neg hm]
      rw [List.nodup_append]
      refine ⟨hd, List.nodup_singleton _, ?_⟩
      intro a ha
      simp only [List.mem_singleton]
      intro rfl2
      exact hm (rfl2 ▸ ha)

end PttxGen

/-- C3 (amended): resolving a flat element list groups the elements by
their declared (integer) 1-based slide index — a missing index defaults
to slide 1 — and emits the groups in *ascending numeric index order*
(spec §8's "ascending by index", not §4.5's "first-seen ordering"); each
group is exactly the sub-sequence of input elements carrying that index,
in input order. -/
theorem group_elements_by_slide_flat_ascending (es : List PttxGen.FlatElem) :
    ∃ ks : List Int, ks.Sorted (· < ·) ∧
      (∀ k : Int, k ∈ ks ↔ k ∈ es.map PttxGen.FlatElem.idx) ∧
      PttxGen.group_elements_by_slide_flat es =
        ks.map (fun k => es.filter (fun e => e.idx == k)) := by
  refine ⟨List.insertionSort (· ≤ ·)
    ((es.foldl (fun d el => PttxGen.addToGroup d el.idx el) []).map
      Prod.fst), ?_, ?_, ?_⟩
  · have hnd : ((es.foldl (fun d el => PttxGen.addToGroup d el.idx el)
        []).map Prod.fst).Nodup :=
      PttxGen.foldl_addToGroup_keys_nodup es [] (by simp)
    have hnd2 := (List.perm_insertionSort (· ≤ ·) _).nodup_iff.mpr hnd
    exact (List.sorted_insertionSort _ _).lt_of_le hnd2
  · intro k
    rw [(List.perm_insertionSort (· ≤ ·) _).mem_iff]
    rw [PttxGen.foldl_addToGroup_keys_mem es [] k]
    simp
  · simp only [PttxGen.group_elements_by_slide_flat]
    apply List.map_congr_left
    intro k _
    rw [PttxGen.foldl_addToGroup_lookup es [] k]
    simp [PttxGen.lookupGroup]

/-- C3 (counterexample): an element tagged slide 2 before one tagged
slide 1 comes out in ascending index order `[slide 1, slide 2]`, not in
the claimed first-seen order `[slide 2, slide 1]`. -/
theorem group_elements_not_first_seen :
    PttxGen.group_elements_by_slide_flat
      [⟨some 2, "A"⟩, ⟨some 1, "B"⟩] =
      [[⟨some 1, "B"⟩], [⟨some 2, "A"⟩]] ∧
    ([[(⟨some 1, "B"⟩ : PttxGen.FlatElem)], [⟨some 2, "A"⟩]] ≠
      [[⟨some 2, "A"⟩], [⟨some 1, "B"⟩]]) := by
  exact ⟨by decide, by decide⟩
